import Mathlib

/-!
Verification of the transcript-acquisition subsystem of the yt-summarizer-api
repository: a shallow embedding of the protobuf parameter encoders, the
InnerTube response parser, the metadata resolver fallback and the retry
wrapper, together with theorems settling the specification claims.

Python numeric division is modelled over `Rat` (the millisecond fields are
integers, so the divisions by 1000 are exact), and the JSON values that the
HTTP layer decodes are modelled by the inductive `JVal` with integer-valued
numbers (the fields the code consumes are strings or integers).
-/

namespace YtSummarizer

/-- Python exception kinds that the embedded code can raise. -/
inductive PyErr where
  | keyError
  | indexError
  | typeError
  | valueError
  | attributeError
  | exception (msg : String)
  | transcriptNotFound (videoId : String)
deriving DecidableEq, Repr

/-- JSON values as produced by response.json in Python: objects are
string-keyed association lists, numbers are modelled at integer values. -/
inductive JVal where
  | null
  | bool (b : Bool)
  | num (n : Int)
  | str (s : String)
  | arr (elems : List JVal)
  | obj (fields : List (String × JVal))

/-- Python is None identity test on a JSON value. -/
def isNone : JVal → Bool
  | .null => true
  | _ => false

/-- Python equality of a JSON value with a string: only a string value with
the same characters compares equal. -/
def eqStr : JVal → String → Bool
  | .str t, s => t == s
  | _, _ => false

/-- Python truthiness of a JSON value: None, False, 0, empty string, empty
list and empty dict are falsy. -/
def isFalsy : JVal → Bool
  | .null => true
  | .bool b => !b
  | .num n => n == 0
  | .str s => s == ""
  | .arr l => l.isEmpty
  | .obj l => l.isEmpty

/-- Fuel-indexed helper for the varint encoder; the fuel only bounds the
recursion depth and is irrelevant once at least the value itself. -/
def encodeVarintAux : Nat → Nat → List Nat
  | 0, value => [value % 128]
  | fuel + 1, value =>
    let byte := value % 128
    let rest := value / 128
    if rest = 0 then [byte] else (byte + 128) :: encodeVarintAux fuel rest

/-- Embedding of the source function encode_varint: repeatedly emit the low
7 bits, setting the continuation bit 0x80 on every byte except the last.
The loop of the source is realized through a fuel argument; the theorem
encode_varint_unfold recovers the loop equation. -/
def encode_varint (value : Nat) : List Nat :=
  encodeVarintAux value value

/-- UTF-8 encoding of a single character, the standard bit layout that the
Python value.encode of the source produces. -/
def utf8EncodeChar (c : Char) : List Nat :=
  let n := c.toNat
  if n < 0x80 then [n]
  else if n < 0x800 then [0xC0 + (n / 64) % 32, 0x80 + n % 64]
  else if n < 0x10000 then
    [0xE0 + (n / 4096) % 16, 0x80 + (n / 64) % 64, 0x80 + n % 64]
  else
    [0xF0 + (n / 262144) % 8, 0x80 + (n / 4096) % 64, 0x80 + (n / 64) % 64,
      0x80 + n % 64]

/-- UTF-8 bytes of a string. -/
def utf8Bytes (s : String) : List Nat :=
  s.data.flatMap utf8EncodeChar

/-- Embedding of the source function encode_string_field: tag varint for
(field_number <<< 3) ||| 2, then the varint byte length, then the bytes. -/
def encode_string_field (field_number : Nat) (value : String) : List Nat :=
  let tag := field_number * 8 + 2
  let tag_bytes := encode_varint tag
  let value_bytes := utf8Bytes value
  let length_bytes := encode_varint value_bytes.length
  tag_bytes ++ length_bytes ++ value_bytes

/-- Characters of the standard base64 alphabet. -/
def base64Alphabet : List Char :=
  "ABCDEFGHIJKLMNOPQRSTUVWXYZabcdefghijklmnopqrstuvwxyz0123456789+/".data

/-- Character of the base64 alphabet at a 6-bit index. -/
def b64Char (n : Nat) : Char :=
  base64Alphabet.getD n 'A'

/-- Standard base64 encoding of a byte list, with padding, as the Python
base64.b64encode of the source produces. -/
def base64Encode : List Nat → List Char
  | [] => []
  | [a] => [b64Char (a / 4), b64Char (a % 4 * 16), '=', '=']
  | [a, b] =>
      [b64Char (a / 4), b64Char (a % 4 * 16 + b / 16), b64Char (b % 16 * 4), '=']
  | a :: b :: c :: rest =>
      b64Char (a / 4) :: b64Char (a % 4 * 16 + b / 16) ::
        b64Char (b % 16 * 4 + c / 64) :: b64Char (c % 64) :: base64Encode rest

/-- Protobuf byte buffer assembled by the source function get_base64_protobuf
before base64 encoding: field 1 then field 2, each only when present. -/
def protoBuffer (param1 param2 : Option String) : List Nat :=
  (match param1 with
   | some v => encode_string_field 1 v
   | none => []) ++
  (match param2 with
   | some v => encode_string_field 2 v
   | none => [])

/-- Embedding of the source function get_base64_protobuf: two optional
string fields, absent fields contribute nothing, base64 of the buffer. -/
def get_base64_protobuf (param1 param2 : Option String) : String :=
  String.mk (base64Encode (protoBuffer param1 param2))

/-- Reference base-128 little-endian varint decoder (test-only in the spec,
never part of the production code path). -/
def decodeVarint : List Nat → Option (Nat × List Nat)
  | [] => none
  | b :: rest =>
    if b < 128 then some (b, rest)
    else
      match decodeVarint rest with
      | some (v, rem) => some (b - 128 + 128 * v, rem)
      | none => none

/-- Index of a character in the base64 alphabet, none when not a data
character. -/
def b64Index (c : Char) : Option Nat :=
  let i := base64Alphabet.indexOf c
  if i < 64 then some i else none

/-- Reference base64 decoder used to state the decoding claims: groups of
four characters, the final group possibly padded with one or two equals
signs. -/
def base64Decode : List Char → Option (List Nat)
  | [] => some []
  | a :: b :: c :: d :: rest =>
    if c = '=' ∧ d = '=' ∧ rest = [] then do
      let x ← b64Index a
      let y ← b64Index b
      some [x * 4 + y / 16]
    else if d = '=' ∧ rest = [] then do
      let x ← b64Index a
      let y ← b64Index b
      let z ← b64Index c
      some [x * 4 + y / 16, y % 16 * 16 + z / 4]
    else do
      let x ← b64Index a
      let y ← b64Index b
      let z ← b64Index c
      let w ← b64Index d
      let tail ← base64Decode rest
      some ((x * 4 + y / 16) :: (y % 16 * 16 + z / 4) :: (z % 4 * 64 + w) :: tail)
  | _ => none

/-- Reference decoder for a single length-delimited protobuf record:
returns the field number, the payload bytes and the remaining input. -/
def decodeField (l : List Nat) : Option ((Nat × List Nat) × List Nat) := do
  let (tag, r1) ← decodeVarint l
  if tag % 8 == 2 then do
    let (len, r2) ← decodeVarint r1
    if len ≤ r2.length then
      some ((tag / 8, r2.take len), r2.drop len)
    else none
  else none

/-- Fuel-bounded reference decoder for a sequence of length-delimited
records. -/
def decodeFieldsAux : Nat → List Nat → Option (List (Nat × List Nat))
  | _, [] => some []
  | 0, _ :: _ => none
  | fuel + 1, l => do
      let (f, rest) ← decodeField l
      let fs ← decodeFieldsAux fuel rest
      some (f :: fs)

/-- Reference decoder for a whole protobuf message into its records. -/
def decodeFields (l : List Nat) : Option (List (Nat × List Nat)) :=
  decodeFieldsAux l.length l

/-- Python subscript v[k] with a string key: objects look the key up and
raise KeyError when it is missing, every other value raises TypeError. -/
def getItemStr : JVal → String → Except PyErr JVal
  | .obj fields, k =>
    match fields.lookup k with
    | some v => .ok v
    | none => .error .keyError
  | _, _ => .error .typeError

/-- Python subscript v[i] with a nonnegative integer index: lists raise
IndexError out of range, strings yield a one-character string, objects with
string keys raise KeyError, every other value raises TypeError. -/
def getItemIdx : JVal → Nat → Except PyErr JVal
  | .arr l, i =>
    match l[i]? with
    | some v => .ok v
    | none => .error .indexError
  | .str s, i =>
    match s.data[i]? with
    | some c => .ok (.str (String.mk [c]))
    | none => .error .indexError
  | .obj _, _ => .error .keyError
  | _, _ => .error .typeError

/-- Python dict.get with default None: objects return the value or None,
every other receiver raises AttributeError. -/
def dictGet : JVal → String → Except PyErr JVal
  | .obj fields, k => .ok ((fields.lookup k).getD .null)
  | _, _ => .error .attributeError

/-- Python membership test of a string in a JSON value: key membership for
objects, substring for strings, element equality for lists. -/
def pyContains (item : JVal) (k : String) : Except PyErr Bool :=
  match item with
  | .obj fields => .ok (fields.any (fun p => p.1 == k))
  | .str s => .ok ((List.range (s.length + 1)).any (fun i => (s.drop i).startsWith k))
  | .arr l => .ok (l.any (fun v => eqStr v k))
  | _ => .error .typeError

/-- Python iteration over a JSON value: lists yield elements, strings yield
characters, objects yield their keys, other values raise TypeError. -/
def iterElems : JVal → Except PyErr (List JVal)
  | .arr l => .ok l
  | .str s => .ok (s.data.map (fun c => .str (String.mk [c])))
  | .obj fields => .ok (fields.map (fun p => JVal.str p.1))
  | _ => .error .typeError

/-- Accumulating decimal digit parser over a character list, none on any
non-digit character. -/
def digitsValAux (acc : Nat) : List Char → Option Nat
  | [] => some acc
  | c :: cs =>
    if c.isDigit then digitsValAux (acc * 10 + (c.toNat - 48)) cs else none

/-- Integer parse of a string as the Python int builtin performs on the
decimal strings of the responses: an optional sign followed by at least one
digit. -/
def pyIntOfString (s : String) : Option Int :=
  match s.data with
  | [] => none
  | '-' :: c :: cs => (digitsValAux 0 (c :: cs)).map (fun n => -(n : Int))
  | '+' :: c :: cs => (digitsValAux 0 (c :: cs)).map (fun n => (n : Int))
  | l => (digitsValAux 0 l).map (fun n => (n : Int))

/-- Python int applied to a JSON value: integers pass through, strings are
parsed or raise ValueError, booleans become 0 or 1, the rest raise
TypeError. -/
def pyInt : JVal → Except PyErr Int
  | .num n => .ok n
  | .str s =>
    match pyIntOfString s with
    | some n => .ok n
    | none => .error .valueError
  | .bool b => .ok (if b then 1 else 0)
  | _ => .error .typeError

/-- Concatenation of the run texts, as the Python join over run
subscripts: each run must carry a string under the text key. -/
def joinRuns : List JVal → Except PyErr String
  | [] => .ok ""
  | run :: rest => do
    let t ← getItemStr run "text"
    match t with
    | .str s => do
        let restS ← joinRuns rest
        .ok (s ++ restS)
    | _ => .error .typeError

/-- Embedding of the source function extract_text: a simpleText value wins,
else a truthy runs list is joined, else the empty string. -/
def extract_text (item : JVal) : Except PyErr JVal := do
  if (← pyContains item "simpleText") then
    getItemStr item "simpleText"
  else if (← pyContains item "runs") then do
    let runsVal ← getItemStr item "runs"
    if isFalsy runsVal then .ok (.str "")
    else do
      let elems ← iterElems runsVal
      let s ← joinRuns elems
      .ok (.str s)
  else .ok (.str "")

/-- Transcript segment as assembled by the source: the text value and the
start and duration seconds obtained by exact division by 1000. -/
structure TranscriptSegment where
  text : JVal
  start : Rat
  duration : Rat

/-- Fixed nested key path descended by the source from the decoded response
to the initialSegments list. -/
def getInitialSegments (responseData : JVal) : Except PyErr JVal := do
  let a ← getItemStr responseData "actions"
  let a ← getItemIdx a 0
  let a ← getItemStr a "updateEngagementPanelAction"
  let a ← getItemStr a "content"
  let a ← getItemStr a "transcriptRenderer"
  let a ← getItemStr a "content"
  let a ← getItemStr a "transcriptSearchPanelRenderer"
  let a ← getItemStr a "body"
  let a ← getItemStr a "transcriptSegmentListRenderer"
  getItemStr a "initialSegments"

/-- Loop body of the source over one entry of initialSegments: resolve the
header or line renderer, skip falsy renderers and lines missing a required
field, otherwise build the segment. -/
def processSegment (segment : JVal) : Except PyErr (Option TranscriptSegment) := do
  let hdr ← dictGet segment "transcriptSectionHeaderRenderer"
  let line ← if isFalsy hdr then dictGet segment "transcriptSegmentRenderer" else pure hdr
  if isFalsy line then pure none
  else do
    let startMs ← dictGet line "startMs"
    let endMs ← dictGet line "endMs"
    let snippet ← dictGet line "snippet"
    if isNone startMs || isNone endMs || isNone snippet then pure none
    else do
      let text ← extract_text snippet
      let s ← pyInt startMs
      let e ← pyInt endMs
      pure (some ⟨text, (s : Rat) / 1000, ((e : Rat) - (s : Rat)) / 1000⟩)

/-- Folding of the loop of the source over the whole initialSegments list,
in order, keeping the emitted segments. -/
def processSegments : List JVal → Except PyErr (List TranscriptSegment)
  | [] => .ok []
  | seg :: rest => do
    let r ← processSegment seg
    let tail ← processSegments rest
    match r with
    | some s => .ok (s :: tail)
    | none => .ok tail

/-- Embedding of the response-handling part of the source function
get_subtitles_from_innertube: descend the fixed path, map KeyError and
IndexError to TranscriptNotFoundError, fail on a falsy segment list, then
process each entry. -/
def get_subtitles_from_innertube (video_id : String) (responseData : JVal) :
    Except PyErr (List TranscriptSegment) := do
  let initialSegments ←
    match getInitialSegments responseData with
    | .ok v => pure v
    | .error .keyError => throw (.transcriptNotFound video_id)
    | .error .indexError => throw (.transcriptNotFound video_id)
    | .error e => throw e
  if isFalsy initialSegments then throw (.transcriptNotFound video_id)
  else do
    let segs ← iterElems initialSegments
    processSegments segs

/-- Request parameter assembled by the source function
get_subtitles_from_innertube before the HTTP POST: the inner message holds
the language as param2 and carries param1 = track kind only when the track
kind equals asr, the outer message holds the video id and the base64 of the
inner message. -/
def innertube_params (video_id track_kind language : String) : String :=
  let inner_param1 : Option String :=
    if track_kind == "asr" then some track_kind else none
  let encoded_inner_message := get_base64_protobuf inner_param1 (some language)
  get_base64_protobuf (some video_id) (some encoded_inner_message)

/-- Caption track kinds of the specification data model. -/
inductive TrackKind where
  | STANDARD
  | AUTOMATIC
deriving DecidableEq

/-- Wire string of a track kind as the catalog API reports it. -/
def trackKindString : TrackKind → String
  | .STANDARD => "standard"
  | .AUTOMATIC => "asr"

/-- Modelled from the spec: build_parameter_block composition of section 4.2
of the specification, the inner block carries field2 = language and
field1 = asr exactly for AUTOMATIC, the outer block carries the video
identifier and the base64 of the inner block. -/
def spec_request_parameter (videoIdentifier language : String) (kind : TrackKind) : String :=
  get_base64_protobuf (some videoIdentifier)
    (some (get_base64_protobuf
      (if kind = TrackKind.AUTOMATIC then some "asr" else none) (some language)))

/-- Video snippet fields consulted by the source function
get_default_subtitle_language. -/
structure VideoSnippet where
  defaultLanguage : Option String
  defaultAudioLanguage : Option String

/-- Caption track entry fields consulted by the source function
get_default_subtitle_language. -/
structure CaptionItem where
  language : String
  trackKind : String

/-- Language and track kind returned by the metadata resolver. -/
structure LangInfo where
  language : String
  trackKind : String

/-- Python or on two optional strings: the first operand wins unless it is
absent or empty. -/
def pyOrOptStr (a b : Option String) : Option String :=
  match a with
  | some s => if s == "" then b else some s
  | none => b

/-- Embedding of the source function get_default_subtitle_language over the
two catalog responses: requires an initialized client, exactly one video
item and a nonempty caption list, then picks the preferred-language track
or the first one. -/
def get_default_subtitle_language (client : Option Unit) (video_id : String)
    (videoItems : List VideoSnippet) (subtitleItems : List CaptionItem) :
    Except PyErr LangInfo :=
  match client with
  | none => .error (.exception
      "YouTube Data API client is not initialized. Cannot fetch default subtitle language without a valid API key.")
  | some _ =>
    match videoItems with
    | [] => .error (.exception ("No video found for ID: " ++ video_id))
    | [video_snippet] =>
      let preferred_language :=
        pyOrOptStr video_snippet.defaultLanguage video_snippet.defaultAudioLanguage
      match subtitleItems with
      | [] => .error (.exception ("No subtitles found for video: " ++ video_id))
      | first :: rest =>
        let found_subtitle : Option CaptionItem :=
          match preferred_language with
          | some p =>
            if p == "" then none
            else (first :: rest).find? (fun sub => sub.language == p)
          | none => none
        let sel := found_subtitle.getD first
        .ok ⟨sel.language, sel.trackKind⟩
    | _ => .error (.exception ("Multiple videos found for video: " ++ video_id))

/-- Embedding of the source function fetch_transcript: try the metadata
resolver, on any failure fall back to language en with the standard track
kind, then call the protocol client and pass its outcome through. -/
def fetch_transcript (client : Option Unit) (video_id : String)
    (videoItems : List VideoSnippet) (subtitleItems : List CaptionItem)
    (innertube : String → String → String → Except PyErr (List TranscriptSegment)) :
    Except PyErr (List TranscriptSegment) :=
  match get_default_subtitle_language client video_id videoItems subtitleItems with
  | .ok lang_info => innertube video_id lang_info.trackKind lang_info.language
  | .error _ => innertube video_id "standard" "en"

/-- Outcome of one call to the cached transcript fetch inside the retry
wrapper. -/
inductive AttemptOutcome where
  | success (transcript : List TranscriptSegment)
  | notFound (message : String)
  | failure (message : String)

/-- Observable trace of one run of the retry wrapper: how many attempts ran,
the delays slept between attempts, and the returned pair of an optional
transcript and an optional error event with its status code. -/
structure RetryRun where
  attemptsMade : Nat
  sleeps : List Nat
  transcript : Option (List TranscriptSegment)
  errorEvent : Option (String × Nat)

/-- Loop of the source function fetch_transcript_with_retries, recursing on
the number of remaining attempts: success and the not-found error return at
once, another failure on the last attempt returns the 500 event, otherwise
the wrapper sleeps the caller-supplied delay and retries. -/
def retryLoop (outcomes : Nat → AttemptOutcome) (numAttempts delay : Nat) :
    Nat → Nat → RetryRun
  | 0, _ => ⟨0, [], none,
      some ("Unknown error fetching transcript after all retries", 500)⟩
  | remaining + 1, idx =>
    match outcomes idx with
    | .success t => ⟨1, [], some t, none⟩
    | .notFound msg => ⟨1, [], none, some (msg, 404)⟩
    | .failure msg =>
      if remaining = 0 then
        ⟨1, [], none,
          some ("Error fetching transcript after " ++ toString numAttempts
            ++ " attempts: " ++ msg, 500)⟩
      else
        let rest := retryLoop outcomes numAttempts delay remaining (idx + 1)
        ⟨rest.attemptsMade + 1, delay :: rest.sleeps, rest.transcript, rest.errorEvent⟩

/-- Embedding of the source function fetch_transcript_with_retries: at least
one attempt is always made, the attempt outcomes are supplied as a
function from the zero-based attempt index. -/
def fetch_transcript_with_retries (outcomes : Nat → AttemptOutcome)
    (total_attempts initial_delay_seconds : Nat) : RetryRun :=
  retryLoop outcomes (max 1 total_attempts) initial_delay_seconds
    (max 1 total_attempts) 0

/-- Nesting of single-key objects along a key path, used to build concrete
responses exercising the fixed nested path. -/
def nestObj : List String → JVal → JVal
  | [], v => v
  | k :: ks, v => .obj [(k, nestObj ks v)]

/-- Concrete response whose fixed nested path leads to the given
initialSegments value. -/
def wrapResponse (segments : JVal) : JVal :=
  JVal.obj [("actions", JVal.arr [nestObj
    ["updateEngagementPanelAction", "content", "transcriptRenderer", "content",
     "transcriptSearchPanelRenderer", "body", "transcriptSegmentListRenderer",
     "initialSegments"] segments])]

/-- Entry of initialSegments carrying a section header renderer with the
given fields. -/
def sectionHeaderSegment (fields : List (String × JVal)) : JVal :=
  .obj [("transcriptSectionHeaderRenderer", .obj fields)]

/-- Entry of initialSegments carrying a transcript line renderer with the
given fields. -/
def transcriptLineSegment (fields : List (String × JVal)) : JVal :=
  .obj [("transcriptSegmentRenderer", .obj fields)]

/-- Content line of initialSegments with the three required fields. -/
def contentLine (startMs endMs snippet : JVal) : JVal :=
  transcriptLineSegment [("startMs", startMs), ("endMs", endMs), ("snippet", snippet)]

/-- Reduction of an Except bind on a success value. -/
theorem ok_bind {α β : Type} (a : α) (f : α → Except PyErr β) :
    (Except.ok a >>= f : Except PyErr β) = f a := rfl

/-- Reduction of an Except bind on an error value. -/
theorem error_bind {α β : Type} (e : PyErr) (f : α → Except PyErr β) :
    ((Except.error e : Except PyErr α) >>= f) = (Except.error e : Except PyErr β) := rfl

/-- Reduction of pure into the Except success constructor. -/
theorem pure_eq_ok {α : Type} (a : α) : (pure a : Except PyErr α) = Except.ok a := rfl

/-- Reduction of throw into the Except error constructor. -/
theorem throw_eq_error {α : Type} (e : PyErr) :
    (throw e : Except PyErr α) = Except.error e := rfl

/-- Fuel irrelevance of the varint encoder helper: any fuel at least the
value yields the same bytes. -/
theorem encodeVarintAux_irrel :
    ∀ f1 f2 v : Nat, v ≤ f1 → v ≤ f2 → encodeVarintAux f1 v = encodeVarintAux f2 v := by
  intro f1
  induction f1 with
  | zero =>
    intro f2 v h1 _
    interval_cases v
    cases f2 <;> simp [encodeVarintAux]
  | succ f1 ih =>
    intro f2 v h1 h2
    cases f2 with
    | zero =>
      interval_cases v
      simp [encodeVarintAux]
    | succ f2 =>
      simp only [encodeVarintAux]
      by_cases hz : v / 128 = 0
      · simp [hz]
      · have hv : 0 < v := by
          rcases Nat.eq_zero_or_pos v with h | h
          · subst h; simp at hz
          · exact h
        have hlt : v / 128 < v := Nat.div_lt_self hv (by omega)
        simp only [hz, if_false]
        exact congrArg _ (ih f2 (v / 128) (by omega) (by omega))

/-- Loop equation of the source function encode_varint: one byte when the
shifted value is zero, otherwise a continuation byte followed by the
encoding of the shifted value. -/
theorem encode_varint_unfold (v : Nat) :
    encode_varint v =
      if v / 128 = 0 then [v % 128]
      else (v % 128 + 128) :: encode_varint (v / 128) := by
  unfold encode_varint
  cases v with
  | zero => simp [encodeVarintAux]
  | succ v =>
    simp only [encodeVarintAux]
    by_cases hz : (v + 1) / 128 = 0
    · simp [hz]
    · have hlt : (v + 1) / 128 < v + 1 := Nat.div_lt_self (by omega) (by omega)
      simp only [hz, if_false]
      exact congrArg _ (encodeVarintAux_irrel v ((v + 1) / 128) ((v + 1) / 128)
        (by omega) (le_refl _))

/-- Claim C1 counterexample: an HTTP-200 JSON response in which the actions
value has the wrong type (JSON null), so the nested path cannot be reached,
makes the protocol client raise a TypeError rather than
TranscriptNotFoundError, refuting the uniform not-found treatment of
wrong-typed path values. -/
theorem c1_counterexample_wrong_type_raises_type_error :
    get_subtitles_from_innertube "abc123" (.obj [("actions", .null)]) =
      .error .typeError ∧
    get_subtitles_from_innertube "abc123" (.obj [("actions", .null)]) ≠
      .error (.transcriptNotFound "abc123") := by
  have h1 : get_subtitles_from_innertube "abc123" (.obj [("actions", .null)]) =
      .error .typeError := rfl
  refine ⟨h1, ?_⟩
  rw [h1]
  intro h
  exact PyErr.noConfusion (Except.error.inj h)

/-- Claim C1 (amended): whenever descending the fixed nested path fails with
a missing key (KeyError) or an out-of-range index (IndexError, covering the
empty actions list), the protocol client raises TranscriptNotFoundError
carrying the video identifier — in particular for a response lacking the
actions key and for a response with an empty actions list — while a
wrong-typed value along the path raises a TypeError that propagates as a
generic error. -/
theorem c1_amended_not_found_on_key_or_index_error :
    (∀ (video_id : String) (resp : JVal),
        getInitialSegments resp = .error .keyError →
        get_subtitles_from_innertube video_id resp =
          .error (.transcriptNotFound video_id)) ∧
    (∀ (video_id : String) (resp : JVal),
        getInitialSegments resp = .error .indexError →
        get_subtitles_from_innertube video_id resp =
          .error (.transcriptNotFound video_id)) ∧
    (∀ (video_id : String) (resp : JVal),
        getInitialSegments resp = .error .typeError →
        get_subtitles_from_innertube video_id resp = .error .typeError) ∧
    (∀ video_id : String,
        get_subtitles_from_innertube video_id (.obj []) =
          .error (.transcriptNotFound video_id)) ∧
    (∀ video_id : String,
        get_subtitles_from_innertube video_id (.obj [("actions", .arr [])]) =
          .error (.transcriptNotFound video_id)) := by
  refine ⟨?_, ?_, ?_, fun _ => rfl, fun _ => rfl⟩ <;>
    · intro video_id resp h
      unfold get_subtitles_from_innertube
      rw [h]
      rfl

/-- Claim C1 witness: concrete responses exercising the three hypotheses of
the amended theorem, a missing key deep in the path, an empty actions list,
and a wrong-typed actions value. -/
theorem c1_amended_witness :
    get_subtitles_from_innertube "w1" (.obj [("actions", .arr [.obj []])]) =
      .error (.transcriptNotFound "w1") ∧
    get_subtitles_from_innertube "w2" (.obj [("actions", .arr [])]) =
      .error (.transcriptNotFound "w2") ∧
    get_subtitles_from_innertube "w3" (.obj [("actions", .num 5)]) =
      .error .typeError :=
  ⟨c1_amended_not_found_on_key_or_index_error.1 "w1" (.obj [("actions", .arr [.obj []])]) rfl,
   c1_amended_not_found_on_key_or_index_error.2.1 "w2" (.obj [("actions", .arr [])]) rfl,
   c1_amended_not_found_on_key_or_index_error.2.2.1 "w3" (.obj [("actions", .num 5)]) rfl⟩

/-- Claim C2 counterexample: a section-header entry that carries startMs,
endMs and snippet sub-fields is not skipped; the protocol client emits a
TranscriptSegment for it and its text appears in the returned sequence. -/
theorem c2_counterexample_header_with_fields_is_emitted :
    get_subtitles_from_innertube "vid"
      (wrapResponse (.arr [sectionHeaderSegment
        [("startMs", .str "0"), ("endMs", .str "1000"),
         ("snippet", .obj [("simpleText", .str "Intro")])]])) =
      .ok [⟨.str "Intro", 0, 1⟩] := by
  have h : get_subtitles_from_innertube "vid"
      (wrapResponse (.arr [sectionHeaderSegment
        [("startMs", .str "0"), ("endMs", .str "1000"),
         ("snippet", .obj [("simpleText", .str "Intro")])]])) =
      .ok [⟨.str "Intro", ((0 : Int) : Rat) / 1000,
        (((1000 : Int) : Rat) - ((0 : Int) : Rat)) / 1000⟩] := rfl
  rw [h]
  norm_num

/-- Claim C2 (amended): a section-header entry is skipped, emitting no
TranscriptSegment, whenever its renderer record lacks any of the startMs,
endMs or snippet sub-fields (the shape actual platform headers have); a
header entry carrying all three sub-fields is processed like a content
line instead. -/
theorem c2_amended_header_without_required_field_skipped :
    ∀ fields : List (String × JVal),
      (fields.lookup "startMs" = none ∨ fields.lookup "endMs" = none ∨
        fields.lookup "snippet" = none) →
      processSegment (sectionHeaderSegment fields) = .ok none := by
  intro fields h
  cases fields with
  | nil => rfl
  | cons f fs =>
    rcases h with h | h | h <;>
      · simp only [List.lookup] at h
        simp [processSegment, sectionHeaderSegment, dictGet, h, isNone, isFalsy,
          ok_bind, pure_eq_ok, List.lookup]

/-- Claim C2 witness: a concrete header entry with only a section title is
skipped. -/
theorem c2_amended_witness :
    processSegment (sectionHeaderSegment
      [("sectionHeader", .obj [("simpleText", .str "Chapter 1")])]) = .ok none :=
  c2_amended_header_without_required_field_skipped
    [("sectionHeader", .obj [("simpleText", .str "Chapter 1")])] (Or.inl rfl)

/-- Key absence transfers from lookup to the membership scan of
pyContains. -/
theorem any_key_eq_false_of_lookup_none {fs : List (String × JVal)} {k : String}
    (h : fs.lookup k = none) : fs.any (fun p => p.1 == k) = false := by
  induction fs with
  | nil => rfl
  | cons f fs ih =>
    simp only [List.lookup] at h
    rcases hk : k == f.1 with _ | _
    · rw [hk] at h
      simp only [List.any_cons, Bool.or_eq_false_iff]
      refine ⟨?_, ih h⟩
      simp only [beq_eq_false_iff_ne] at hk ⊢
      exact fun e => hk e.symm
    · rw [hk] at h
      exact absurd h (by simp)

/-- Key presence transfers from lookup to the membership scan of
pyContains. -/
theorem any_key_eq_true_of_lookup_some {fs : List (String × JVal)} {k : String} {v : JVal}
    (h : fs.lookup k = some v) : fs.any (fun p => p.1 == k) = true := by
  induction fs with
  | nil => exact absurd h (by simp [List.lookup])
  | cons f fs ih =>
    simp only [List.lookup] at h
    rcases hk : k == f.1 with _ | _
    · rw [hk] at h
      simp only [List.any_cons, Bool.or_eq_true_iff]
      exact Or.inr (ih h)
    · simp only [List.any_cons, Bool.or_eq_true_iff]
      refine Or.inl ?_
      simp only [beq_iff_eq] at hk ⊢
      exact hk.symm

/-- Text extraction yields the empty string whenever the snippet record has
no simpleText key and its runs value, if any, is falsy. -/
theorem extract_text_empty_of_no_text {fields : List (String × JVal)}
    (h1 : fields.lookup "simpleText" = none)
    (h2 : ∀ v, fields.lookup "runs" = some v → isFalsy v = true) :
    extract_text (.obj fields) = .ok (.str "") := by
  have ha := any_key_eq_false_of_lookup_none h1
  cases hr : fields.lookup "runs" with
  | none =>
    have hb := any_key_eq_false_of_lookup_none hr
    simp [extract_text, pyContains, ha, hb, ok_bind]
  | some v =>
    have hb := any_key_eq_true_of_lookup_some hr
    have hv := h2 v hr
    simp [extract_text, pyContains, getItemStr, ha, hb, hr, hv, ok_bind]

/-- Claim C3 counterexample: a content line with endMs smaller than startMs
makes fetch_transcript return a segment with negative durationSeconds,
refuting the nonnegativity part of the claim. -/
theorem c3_counterexample_negative_duration :
    fetch_transcript none "v" [] []
      (fun vid _ _ => get_subtitles_from_innertube vid
        (wrapResponse (.arr [contentLine (.str "5000") (.str "1000")
          (.obj [("simpleText", .str "x")])]))) =
      .ok [⟨.str "x", 5, -4⟩] ∧ (-4 : Rat) < 0 := by
  constructor
  · have h : fetch_transcript none "v" [] []
        (fun vid _ _ => get_subtitles_from_innertube vid
          (wrapResponse (.arr [contentLine (.str "5000") (.str "1000")
            (.obj [("simpleText", .str "x")])]))) =
        .ok [⟨.str "x", ((5000 : Int) : Rat) / 1000,
          (((1000 : Int) : Rat) - ((5000 : Int) : Rat)) / 1000⟩] := rfl
    rw [h]
    norm_num
  · norm_num

/-- Claim C3 (amended): every retained content line with integer startMs and
endMs yields startSeconds = startMs divided by 1000 and durationSeconds =
endMs minus startMs divided by 1000; these are nonnegative whenever
0 ≤ startMs ≤ endMs, and the concrete line 1500 to 4200 yields 1.5 and 2.7;
the code does not enforce nonnegativity when endMs is below startMs. -/
theorem c3_amended_timing_conversion :
    (∀ s e : Int, processSegment (contentLine (.num s) (.num e)
        (.obj [("simpleText", .str "hi")])) =
      .ok (some ⟨.str "hi", (s : Rat) / 1000, ((e : Rat) - (s : Rat)) / 1000⟩)) ∧
    (∀ s e : Int, 0 ≤ s → s ≤ e →
      0 ≤ (s : Rat) / 1000 ∧ 0 ≤ ((e : Rat) - (s : Rat)) / 1000) ∧
    (processSegment (contentLine (.str "1500") (.str "4200")
        (.obj [("simpleText", .str "hi")])) =
      .ok (some ⟨.str "hi", 3 / 2, 27 / 10⟩)) := by
  refine ⟨fun s e => rfl, fun s e hs hse => ⟨?_, ?_⟩, ?_⟩
  · apply div_nonneg _ (by norm_num)
    exact_mod_cast hs
  · apply div_nonneg _ (by norm_num)
    rw [sub_nonneg]
    exact_mod_cast hse
  · have h : processSegment (contentLine (.str "1500") (.str "4200")
        (.obj [("simpleText", .str "hi")])) =
        .ok (some ⟨.str "hi", ((1500 : Int) : Rat) / 1000,
          (((4200 : Int) : Rat) - ((1500 : Int) : Rat)) / 1000⟩) := rfl
    rw [h]
    norm_num

/-- Claim C3 witness: the conversion theorem applied at the concrete line
from 2 ms to 3 ms, and the nonnegativity part applied at 1500 and 4200. -/
theorem c3_amended_witness :
    (processSegment (contentLine (.num 2) (.num 3) (.obj [("simpleText", .str "hi")])) =
      .ok (some ⟨.str "hi", ((2 : Int) : Rat) / 1000,
        (((3 : Int) : Rat) - ((2 : Int) : Rat)) / 1000⟩)) ∧
    (0 ≤ ((1500 : Int) : Rat) / 1000 ∧
      0 ≤ (((4200 : Int) : Rat) - ((1500 : Int) : Rat)) / 1000) :=
  ⟨c3_amended_timing_conversion.1 2 3,
   c3_amended_timing_conversion.2.1 1500 4200 (by norm_num) (by norm_num)⟩

/-- Claim C7: segment lists mixing well-formed content lines with lines
missing a required sub-field are processed without raising, keeping exactly
the segments of the non-skipped lines in input order; a line missing a
required field is always skipped, one good line plus one line missing
startMs yields exactly one segment, and a list whose every line is skipped
yields the empty sequence rather than an error. -/
theorem c7_malformed_lines_are_skipped_not_fatal :
    (∀ segs : List JVal, (∀ s ∈ segs, ∃ r, processSegment s = .ok r) →
        processSegments segs = .ok (segs.filterMap
          (fun s => (processSegment s).toOption.getD none))) ∧
    (∀ fields : List (String × JVal),
        (fields.lookup "startMs" = none ∨ fields.lookup "endMs" = none ∨
          fields.lookup "snippet" = none) →
        processSegment (transcriptLineSegment fields) = .ok none) ∧
    (get_subtitles_from_innertube "v"
        (wrapResponse (.arr [contentLine (.str "1500") (.str "4200")
            (.obj [("simpleText", .str "good")]),
          transcriptLineSegment [("endMs", .str "1000"),
            ("snippet", .obj [("simpleText", .str "bad")])]])) =
      .ok [⟨.str "good", 3 / 2, 27 / 10⟩]) ∧
    (get_subtitles_from_innertube "v"
        (wrapResponse (.arr [transcriptLineSegment [("endMs", .str "1000"),
          ("snippet", .obj [("simpleText", .str "bad")])]])) = .ok []) := by
  refine ⟨?_, ?_, ?_, rfl⟩
  · intro segs h
    induction segs with
    | nil => rfl
    | cons s rest ih =>
      obtain ⟨r, hr⟩ := h s (List.mem_cons_self s rest)
      have htail := ih (fun x hx => h x (List.mem_cons_of_mem s hx))
      cases r with
      | none =>
        simp only [processSegments, hr, ok_bind, htail, List.filterMap_cons,
          Except.toOption, Option.getD]
      | some t =>
        simp only [processSegments, hr, ok_bind, htail, List.filterMap_cons,
          Except.toOption, Option.getD]
  · intro fields h
    cases fields with
    | nil => rfl
    | cons f fs =>
      rcases h with h | h | h <;>
        · simp only [List.lookup] at h
          simp [processSegment, transcriptLineSegment, dictGet, h, isNone, isFalsy,
            ok_bind, pure_eq_ok, List.lookup]
  · have h : get_subtitles_from_innertube "v"
        (wrapResponse (.arr [contentLine (.str "1500") (.str "4200")
            (.obj [("simpleText", .str "good")]),
          transcriptLineSegment [("endMs", .str "1000"),
            ("snippet", .obj [("simpleText", .str "bad")])]])) =
        .ok [⟨.str "good", ((1500 : Int) : Rat) / 1000,
          (((4200 : Int) : Rat) - ((1500 : Int) : Rat)) / 1000⟩] := rfl
    rw [h]
    norm_num

/-- Claim C7 witness: the order-preserving conjunct applied at a concrete
singleton list and the skip conjunct applied at a line missing endMs. -/
theorem c7_witness :
    (processSegments [contentLine (.num 1) (.num 2) (.obj [("simpleText", .str "t")])] =
      .ok ([contentLine (.num 1) (.num 2) (.obj [("simpleText", .str "t")])].filterMap
        (fun s => (processSegment s).toOption.getD none))) ∧
    (processSegment (transcriptLineSegment [("startMs", .num 0)]) = .ok none) :=
  ⟨c7_malformed_lines_are_skipped_not_fatal.1
      [contentLine (.num 1) (.num 2) (.obj [("simpleText", .str "t")])]
      (fun s hs => by
        rw [List.mem_singleton] at hs
        subst hs
        exact ⟨some ⟨.str "t", ((1 : Int) : Rat) / 1000,
          (((2 : Int) : Rat) - ((1 : Int) : Rat)) / 1000⟩, rfl⟩),
   c7_malformed_lines_are_skipped_not_fatal.2.1 [("startMs", .num 0)]
      (Or.inr (Or.inl rfl))⟩

/-- Claim C10: a content line whose snippet record carries neither a
simpleText key nor a truthy runs list is not skipped; the extracted text is
the empty string and a segment with empty text is emitted. -/
theorem c10_missing_text_yields_empty_string :
    (∀ fields : List (String × JVal),
        fields.lookup "simpleText" = none →
        (∀ v, fields.lookup "runs" = some v → isFalsy v = true) →
        extract_text (.obj fields) = .ok (.str "")) ∧
    (∀ (fields : List (String × JVal)) (s e : Int),
        fields.lookup "simpleText" = none →
        (∀ v, fields.lookup "runs" = some v → isFalsy v = true) →
        processSegment (contentLine (.num s) (.num e) (.obj fields)) =
          .ok (some ⟨.str "", (s : Rat) / 1000, ((e : Rat) - (s : Rat)) / 1000⟩)) := by
  refine ⟨fun fields h1 h2 => extract_text_empty_of_no_text h1 h2, ?_⟩
  intro fields s e h1 h2
  have ht := extract_text_empty_of_no_text h1 h2
  simp [processSegment, contentLine, transcriptLineSegment, dictGet, isNone, isFalsy,
    ok_bind, pure_eq_ok, List.lookup, ht, pyInt]

/-- Claim C10 witness: a snippet with only an empty runs list produces the
empty text and an emitted segment. -/
theorem c10_witness :
    (extract_text (.obj [("runs", .arr [])]) = .ok (.str "")) ∧
    (processSegment (contentLine (.num 1500) (.num 4200) (.obj [("runs", .arr [])])) =
      .ok (some ⟨.str "", ((1500 : Int) : Rat) / 1000,
        (((4200 : Int) : Rat) - ((1500 : Int) : Rat)) / 1000⟩)) :=
  ⟨c10_missing_text_yields_empty_string.1 [("runs", .arr [])] rfl
      (fun v hv => by
        injection (show some (JVal.arr []) = some v from hv) with h
        rw [← h]
        rfl),
   c10_missing_text_yields_empty_string.2 [("runs", .arr [])] 1500 4200 rfl
      (fun v hv => by
        injection (show some (JVal.arr []) = some v from hv) with h
        rw [← h]
        rfl)⟩

/-- Claim C8: whenever caption-track resolution fails for any reason, in
particular an uninitialized catalog client, a missing video, an ambiguous
video, or an empty track list, fetch_transcript does not propagate the
resolution error; it calls the protocol client with the default descriptor
of language en and the standard track kind and passes its outcome through
unchanged. -/
theorem c8_resolution_failure_falls_back_to_default :
    (∀ (client : Option Unit) (video_id : String) (vItems : List VideoSnippet)
        (sItems : List CaptionItem)
        (f : String → String → String → Except PyErr (List TranscriptSegment))
        (e : PyErr),
        get_default_subtitle_language client video_id vItems sItems = .error e →
        fetch_transcript client video_id vItems sItems f =
          f video_id (trackKindString TrackKind.STANDARD) "en") ∧
    (∀ video_id vItems sItems f, fetch_transcript none video_id vItems sItems f =
        f video_id "standard" "en") ∧
    (∀ video_id sItems f, fetch_transcript (some ()) video_id [] sItems f =
        f video_id "standard" "en") ∧
    (∀ video_id v1 v2 vs sItems f,
        fetch_transcript (some ()) video_id (v1 :: v2 :: vs) sItems f =
          f video_id "standard" "en") ∧
    (∀ video_id v f, fetch_transcript (some ()) video_id [v] [] f =
        f video_id "standard" "en") := by
  refine ⟨?_, fun _ _ _ _ => rfl, fun _ _ _ => rfl, fun _ _ _ _ _ _ => rfl,
    fun _ _ _ => rfl⟩
  intro client video_id vItems sItems f e h
  simp [fetch_transcript, h, trackKindString]

/-- Claim C8 witness: with no catalog client the protocol outcome, here an
error, is passed through unchanged under the default descriptor. -/
theorem c8_witness :
    fetch_transcript none "w8" [] [] (fun _ _ _ => .error .keyError) =
      .error .keyError :=
  c8_resolution_failure_falls_back_to_default.1 none "w8" [] []
    (fun _ _ _ => .error .keyError)
    (.exception "YouTube Data API client is not initialized. Cannot fetch default subtitle language without a valid API key.")
    rfl

/-- Running the retry loop when the first k attempts fail transiently and
attempt k reports not found: the loop stops right after attempt k with the
404 event, having slept k delays. -/
theorem retryLoop_notFound (o : Nat → AttemptOutcome) (n d : Nat) :
    ∀ (k idx remaining : Nat) (msg : String), k < remaining →
      (∀ j, j < k → ∃ m, o (idx + j) = .failure m) →
      o (idx + k) = .notFound msg →
      retryLoop o n d remaining idx = ⟨k + 1, List.replicate k d, none, some (msg, 404)⟩ := by
  intro k
  induction k with
  | zero =>
    intro idx remaining msg hk hprev hnf
    cases remaining with
    | zero => omega
    | succ r =>
      simp only [Nat.add_zero] at hnf
      simp [retryLoop, hnf]
  | succ k ih =>
    intro idx remaining msg hk hprev hnf
    cases remaining with
    | zero => omega
    | succ r =>
      obtain ⟨m0, hm0⟩ := hprev 0 (by omega)
      simp only [Nat.add_zero] at hm0
      have hr : r ≠ 0 := by omega
      have hrec := ih (idx + 1) r msg (by omega)
        (fun j hj => by
          obtain ⟨m, hm⟩ := hprev (j + 1) (by omega)
          exact ⟨m, by rw [show idx + 1 + j = idx + (j + 1) by omega]; exact hm⟩)
        (by rw [show idx + 1 + k = idx + (k + 1) by omega]; exact hnf)
      simp [retryLoop, hm0, hr, hrec, List.replicate_succ]


/-- One step of the retry loop on a transient failure that is not the last
attempt: the counters of the remaining run are extended by this attempt and
its sleep. -/
theorem retryLoop_failure_step (o : Nat → AttemptOutcome) (n d remaining idx : Nat)
    (m : String) (h : o idx = .failure m) (hr : remaining ≠ 0) :
    retryLoop o n d (remaining + 1) idx =
      ⟨(retryLoop o n d remaining (idx + 1)).attemptsMade + 1,
        d :: (retryLoop o n d remaining (idx + 1)).sleeps,
        (retryLoop o n d remaining (idx + 1)).transcript,
        (retryLoop o n d remaining (idx + 1)).errorEvent⟩ := by
  simp [retryLoop, h, hr]

/-- Running the retry loop when every remaining attempt fails transiently:
all attempts are consumed, a delay is slept between consecutive attempts,
and the 500 event reporting the last failure message is returned. -/
theorem retryLoop_all_failures (o : Nat → AttemptOutcome) (n d : Nat) (ms : Nat → String) :
    ∀ (remaining idx : Nat), 0 < remaining →
      (∀ j, j < remaining → o (idx + j) = .failure (ms (idx + j))) →
      retryLoop o n d remaining idx =
        ⟨remaining, List.replicate (remaining - 1) d, none,
          some ("Error fetching transcript after " ++ toString n ++ " attempts: "
            ++ ms (idx + remaining - 1), 500)⟩ := by
  intro remaining
  induction remaining with
  | zero => omega
  | succ r ih =>
    intro idx _ hall
    have h0 := hall 0 (by omega)
    simp only [Nat.add_zero] at h0
    cases r with
    | zero => simp [retryLoop, h0]
    | succ rr =>
      have hrec := ih (idx + 1) (by omega)
        (fun j hj => by
          have hm := hall (j + 1) (by omega)
          rw [show idx + 1 + j = idx + (j + 1) by omega]
          exact hm)
      have hidx : idx + 1 + (rr + 1) - 1 = idx + (rr + 1 + 1) - 1 := by omega
      rw [hidx] at hrec
      rw [retryLoop_failure_step o n d (rr + 1) idx _ h0 (by omega), hrec]
      simp [List.replicate_succ]

/-- Claim C9: in the retry wrapper, an attempt that raises the not-found
error stops the loop at once with the 404 event and no further attempt is
made, while transient failures are retried with the caller-supplied delay
until the caller-supplied attempt bound is exhausted, after which the 500
event is returned. -/
theorem c9_not_found_short_circuits_retries :
    (∀ (o : Nat → AttemptOutcome) (total delay k : Nat) (msg : String),
        k < max 1 total →
        (∀ j, j < k → ∃ m, o j = .failure m) →
        o k = .notFound msg →
        fetch_transcript_with_retries o total delay =
          ⟨k + 1, List.replicate k delay, none, some (msg, 404)⟩) ∧
    (∀ (o : Nat → AttemptOutcome) (total delay : Nat) (ms : Nat → String),
        (∀ j, j < max 1 total → o j = .failure (ms j)) →
        fetch_transcript_with_retries o total delay =
          ⟨max 1 total, List.replicate (max 1 total - 1) delay, none,
            some ("Error fetching transcript after " ++ toString (max 1 total)
              ++ " attempts: " ++ ms (max 1 total - 1), 500)⟩) := by
  constructor
  · intro o total delay k msg hk hprev hnf
    exact retryLoop_notFound o (max 1 total) delay k 0 (max 1 total) msg hk
      (fun j hj => by simpa using hprev j hj)
      (by simpa using hnf)
  · intro o total delay ms hall
    have h := retryLoop_all_failures o (max 1 total) delay ms (max 1 total) 0
      (by omega) (fun j hj => by simpa using hall j hj)
    simpa using h

/-- Claim C9 witness: a run whose first attempt fails and whose second
reports not found stops after two attempts with one sleep and the 404
event, and a run whose attempts all fail returns the 500 event after
consuming the whole bound. -/
theorem c9_witness :
    (fetch_transcript_with_retries
        (fun j => if j = 0 then .failure "f0" else .notFound "nf") 3 2 =
      ⟨2, List.replicate 1 2, none, some ("nf", 404)⟩) ∧
    (fetch_transcript_with_retries (fun _ => .failure "f") 2 3 =
      ⟨max 1 2, List.replicate (max 1 2 - 1) 3, none,
        some ("Error fetching transcript after " ++ toString (max 1 2)
          ++ " attempts: " ++ "f", 500)⟩) :=
  ⟨c9_not_found_short_circuits_retries.1
      (fun j => if j = 0 then .failure "f0" else .notFound "nf") 3 2 1 "nf"
      (by omega)
      (fun j hj => ⟨"f0", by
        have hj0 : j = 0 := by omega
        subst hj0
        rfl⟩)
      rfl,
   c9_not_found_short_circuits_retries.2 (fun _ => .failure "f") 2 3 (fun _ => "f")
      (fun j _ => rfl)⟩

/-- Decoding inverts the varint encoder, also in front of any remaining
input. -/
theorem decodeVarint_encode (v : Nat) :
    ∀ rest, decodeVarint (encode_varint v ++ rest) = some (v, rest) := by
  induction v using Nat.strong_induction_on with
  | _ v ih =>
    intro rest
    rw [encode_varint_unfold]
    by_cases hz : v / 128 = 0
    · have hv : v < 128 := by omega
      simp [hz, decodeVarint, Nat.mod_eq_of_lt hv, hv]
    · simp only [hz, if_false, List.cons_append, decodeVarint]
      have hb : ¬ (v % 128 + 128 < 128) := by omega
      simp only [hb, if_false]
      rw [ih (v / 128) (Nat.div_lt_self (by omega) (by omega)) rest]
      simp only [Option.some.injEq, Prod.mk.injEq, Nat.add_sub_cancel]
      exact ⟨by omega, trivial⟩

/-- Varint encodings are never empty. -/
theorem encode_varint_ne_nil (v : Nat) : encode_varint v ≠ [] := by
  rw [encode_varint_unfold]
  split <;> simp

/-- Every byte of a varint encoding other than the last carries the
continuation bit, and the last byte does not. -/
theorem encode_varint_continuation (v : Nat) :
    (∀ b ∈ (encode_varint v).dropLast, 128 ≤ b) ∧
    (∀ b, (encode_varint v).getLast? = some b → b < 128) := by
  induction v using Nat.strong_induction_on with
  | _ v ih =>
    rw [encode_varint_unfold]
    by_cases hz : v / 128 = 0
    · simp only [hz, if_true]
      constructor
      · intro b hb
        simp [List.dropLast] at hb
      · intro b hb
        have h2 : v % 128 = b := by
          simpa [List.getLast?, List.getLast] using hb
        omega
    · simp only [hz, if_false]
      have hne := encode_varint_ne_nil (v / 128)
      have ihd := ih (v / 128) (Nat.div_lt_self (by omega) (by omega))
      constructor
      · intro b hb
        rw [List.dropLast_cons_of_ne_nil hne] at hb
        rcases List.mem_cons.mp hb with hb | hb
        · omega
        · exact ihd.1 b hb
      · intro b hb
        rcases htl : encode_varint (v / 128) with _ | ⟨hd, tl⟩
        · exact absurd htl hne
        · rw [htl, List.getLast?_cons_cons] at hb
          refine ihd.2 b ?_
          rw [htl]
          exact hb

/-- Dividing by 128 removes exactly seven bits from the bit length. -/
theorem size_div_128 {v : Nat} (hv : 128 ≤ v) :
    Nat.size v = Nat.size (v / 128) + 7 := by
  set s := Nat.size (v / 128) with hs
  have h1 : v / 128 < 2 ^ s := Nat.lt_size_self _
  have hup : Nat.size v ≤ s + 7 := by
    apply Nat.size_le.mpr
    have hb : v < (v / 128 + 1) * 128 := by omega
    calc v < (v / 128 + 1) * 128 := hb
    _ ≤ 2 ^ s * 128 := Nat.mul_le_mul_right _ (by omega)
    _ = 2 ^ (s + 7) := by rw [pow_add]; norm_num
  have hdpos : 0 < v / 128 := Nat.div_pos hv (by omega)
  have hspos : 0 < s := Nat.size_pos.mpr hdpos
  have h2 : 2 ^ (s - 1) ≤ v / 128 := Nat.lt_size.mp (by omega)
  have hlow : s + 6 < Nat.size v := by
    apply Nat.lt_size.mpr
    have : 2 ^ (s - 1) * 128 ≤ (v / 128) * 128 := Nat.mul_le_mul_right _ h2
    have he : 2 ^ (s - 1) * 128 = 2 ^ (s + 6) := by
      rw [show s + 6 = (s - 1) + 7 by omega, pow_add]
      norm_num
    have hd : (v / 128) * 128 ≤ v := by omega
    omega
  omega

/-- Length of a varint encoding: one byte per seven bits of the value, and
at least one byte. -/
theorem encode_varint_length (v : Nat) :
    (encode_varint v).length = max 1 ((Nat.size v + 6) / 7) := by
  induction v using Nat.strong_induction_on with
  | _ v ih =>
    rw [encode_varint_unfold]
    by_cases hz : v / 128 = 0
    · have hb : Nat.size v ≤ 7 := Nat.size_le.mpr (by omega)
      simp only [hz, if_true, List.length_cons, List.length_nil]
      omega
    · have hv : 128 ≤ v := by omega
      have hrec := ih (v / 128) (Nat.div_lt_self (by omega) (by omega))
      have hsz := size_div_128 hv
      have hdpos : 0 < v / 128 := Nat.div_pos hv (by omega)
      have hspos : 0 < Nat.size (v / 128) := Nat.size_pos.mpr hdpos
      simp only [hz, if_false, List.length_cons, hrec]
      omega

/-- Claim C6: for every nonnegative integer, the varint encoding is a
nonempty byte sequence whose length is the number of seven-bit groups of
the bit length and at least one, every byte except the last carries the
continuation bit 0x80 while the last does not, the reference base-128
little-endian decoder recovers the value, and zero encodes as the single
zero byte. -/
theorem c6_varint_contract :
    (∀ v : Nat, encode_varint v ≠ []) ∧
    (∀ v : Nat, (encode_varint v).length = max 1 ((Nat.size v + 6) / 7)) ∧
    (∀ v : Nat, ∀ b ∈ (encode_varint v).dropLast, 128 ≤ b) ∧
    (∀ v b : Nat, (encode_varint v).getLast? = some b → b < 128) ∧
    (∀ v : Nat, decodeVarint (encode_varint v) = some (v, [])) ∧
    encode_varint 0 = [0] :=
  ⟨encode_varint_ne_nil,
   encode_varint_length,
   fun v => (encode_varint_continuation v).1,
   fun v => (encode_varint_continuation v).2,
   fun v => by simpa using decodeVarint_encode v [],
   rfl⟩

/-- Claim C6 witness: the contract applied at the two-byte value 300, whose
encoding is the continuation byte 172 followed by 2. -/
theorem c6_witness :
    encode_varint 300 ≠ [] ∧
    (encode_varint 300).length = max 1 ((Nat.size 300 + 6) / 7) ∧
    (128 ≤ 172) ∧
    (2 < 128) ∧
    decodeVarint (encode_varint 300) = some (300, []) :=
  ⟨c6_varint_contract.1 300,
   c6_varint_contract.2.1 300,
   c6_varint_contract.2.2.1 300 172 (by decide),
   c6_varint_contract.2.2.2.1 300 2 (by decide),
   c6_varint_contract.2.2.2.2.1 300⟩

/-- Varint bytes are bytes. -/
theorem encode_varint_byte_lt (v : Nat) : ∀ b ∈ encode_varint v, b < 256 := by
  induction v using Nat.strong_induction_on with
  | _ v ih =>
    rw [encode_varint_unfold]
    by_cases hz : v / 128 = 0
    · simp only [hz, if_true, List.mem_singleton]
      intro b hb
      omega
    · simp only [hz, if_false, List.mem_cons]
      intro b hb
      rcases hb with hb | hb
      · omega
      · exact ih (v / 128) (Nat.div_lt_self (by omega) (by omega)) b hb

/-- UTF-8 code units are bytes. -/
theorem utf8EncodeChar_byte_lt (c : Char) : ∀ b ∈ utf8EncodeChar c, b < 256 := by
  intro b hb
  by_cases h1 : c.toNat < 128
  · simp [utf8EncodeChar, h1] at hb
    omega
  · by_cases h2 : c.toNat < 2048
    · simp [utf8EncodeChar, h1, h2] at hb
      rcases hb with hb | hb <;> omega
    · by_cases h3 : c.toNat < 65536
      · simp [utf8EncodeChar, h1, h2, h3] at hb
        rcases hb with hb | hb | hb <;> omega
      · simp [utf8EncodeChar, h1, h2, h3] at hb
        rcases hb with hb | hb | hb | hb <;> omega

/-- UTF-8 encodings of strings consist of bytes. -/
theorem utf8Bytes_byte_lt (s : String) : ∀ b ∈ utf8Bytes s, b < 256 := by
  intro b hb
  unfold utf8Bytes at hb
  rcases List.mem_flatMap.mp hb with ⟨c, _, hc⟩
  exact utf8EncodeChar_byte_lt c b hc

/-- Encoded string fields consist of bytes. -/
theorem encode_string_field_byte_lt (n : Nat) (v : String) :
    ∀ b ∈ encode_string_field n v, b < 256 := by
  intro b hb
  unfold encode_string_field at hb
  rcases List.mem_append.mp hb with hb | hb
  · rcases List.mem_append.mp hb with hb | hb
    · exact encode_varint_byte_lt _ b hb
    · exact encode_varint_byte_lt _ b hb
  · exact utf8Bytes_byte_lt v b hb

/-- Protobuf buffers consist of bytes. -/
theorem protoBuffer_byte_lt (p1 p2 : Option String) :
    ∀ b ∈ protoBuffer p1 p2, b < 256 := by
  intro b hb
  unfold protoBuffer at hb
  rcases List.mem_append.mp hb with hb | hb <;>
    [cases p1; cases p2] <;> simp at hb <;>
    exact encode_string_field_byte_lt _ _ b hb

/-- Decoding inverts the base64 alphabet map on six-bit values. -/
theorem b64Index_b64Char : ∀ n, n < 64 → b64Index (b64Char n) = some n := by
  decide

/-- Base64 data characters are never the padding character. -/
theorem b64Char_ne_pad : ∀ n, n < 64 → b64Char n ≠ '=' := by
  decide

/-- Decoding inverts the base64 encoder on byte lists. -/
theorem base64Decode_encode :
    ∀ l : List Nat, (∀ b ∈ l, b < 256) → base64Decode (base64Encode l) = some l := by
  intro l
  induction l using base64Encode.induct with
  | case1 =>
    intro _
    rfl
  | case2 a =>
    intro hb
    have ha : a < 256 := hb a (List.mem_singleton_self a)
    simp only [base64Encode, base64Decode]
    rw [if_pos (by simp)]
    rw [b64Index_b64Char _ (by omega), b64Index_b64Char _ (by omega)]
    simp only [Option.bind_eq_bind, Option.some_bind, Option.some_bind', Option.some.injEq, List.cons.injEq, and_true]
    omega
  | case3 a b =>
    intro hb
    have ha : a < 256 := hb a (by simp)
    have hbb : b < 256 := hb b (by simp)
    simp only [base64Encode, base64Decode]
    rw [if_neg (fun h => b64Char_ne_pad _ (by omega) h.1)]
    rw [if_pos (by simp)]
    rw [b64Index_b64Char _ (by omega), b64Index_b64Char _ (by omega),
      b64Index_b64Char _ (by omega)]
    simp only [Option.bind_eq_bind, Option.some_bind, Option.some_bind', Option.some.injEq, List.cons.injEq, and_true]
    constructor <;> omega
  | case4 a b c rest ih =>
    intro hb
    have ha : a < 256 := hb a (by simp)
    have hbb : b < 256 := hb b (by simp)
    have hc : c < 256 := hb c (by simp)
    have hrest := ih (fun x hx => hb x (by simp [hx]))
    simp only [base64Encode, base64Decode]
    rw [if_neg (fun h => b64Char_ne_pad _ (by omega) h.1)]
    rw [if_neg (fun h => b64Char_ne_pad _ (by omega) h.1)]
    rw [b64Index_b64Char _ (by omega), b64Index_b64Char _ (by omega),
      b64Index_b64Char _ (by omega), b64Index_b64Char _ (by omega)]
    rw [hrest]
    simp only [Option.bind_eq_bind, Option.some_bind, Option.some_bind', Option.some.injEq, List.cons.injEq, and_true]
    refine ⟨by omega, by omega, by omega⟩

/-- The reference record decoder inverts an encoded string field, exposing
the field number and the UTF-8 payload. -/
theorem decodeField_encode (n : Nat) (v : String) (rest : List Nat) :
    decodeField (encode_string_field n v ++ rest) = some ((n, utf8Bytes v), rest) := by
  unfold encode_string_field decodeField
  rw [List.append_assoc, List.append_assoc, decodeVarint_encode]
  simp only [Option.bind_eq_bind, Option.some_bind, Option.some_bind']
  have hmod : (n * 8 + 2) % 8 = 2 := by omega
  have hdiv : (n * 8 + 2) / 8 = n := by omega
  simp only [hmod, hdiv, beq_self_eq_true, if_true]
  rw [decodeVarint_encode]
  simp only [Option.bind_eq_bind, Option.some_bind, Option.some_bind']
  rw [if_pos (by simp)]
  rw [List.take_left, List.drop_left]

/-- Unfolding of the fuel-bounded record decoder on a nonempty input with
successor fuel. -/
theorem decodeFieldsAux_cons (fuel : Nat) (a : Nat) (as : List Nat) :
    decodeFieldsAux (fuel + 1) (a :: as) =
      (do
        let (f, rest) ← decodeField (a :: as)
        let fs ← decodeFieldsAux fuel rest
        some (f :: fs)) := rfl

/-- The reference message decoder recovers a message holding a single
string field. -/
theorem decodeFields_single (n : Nat) (v : String) (hn : n * 8 + 2 < 128) :
    decodeFields (encode_string_field n v) = some [(n, utf8Bytes v)] := by
  have htag : encode_varint (n * 8 + 2) = [n * 8 + 2] := by
    rw [encode_varint_unfold]
    rw [if_pos (by omega)]
    rw [Nat.mod_eq_of_lt hn]
  have hshape : encode_string_field n v =
      (n * 8 + 2) :: (encode_varint (utf8Bytes v).length ++ utf8Bytes v) := by
    simp only [encode_string_field]
    rw [htag]
    simp
  have hfield : decodeField (encode_string_field n v) = some ((n, utf8Bytes v), []) := by
    have h := decodeField_encode n v []
    rwa [List.append_nil] at h
  unfold decodeFields
  rw [hshape, List.length_cons, decodeFieldsAux_cons, ← hshape, hfield]
  simp [decodeFieldsAux]

/-- Claim C5: an absent field contributes no record at all to the parameter
block — for any second field the decoded block of build_parameter_block
with field1 absent holds exactly the single field-2 record — while a
present empty string still contributes a field-1 record with an empty
payload. -/
theorem c5_absent_field_omitted_empty_field_kept :
    (∀ s : String,
        (base64Decode (get_base64_protobuf none (some s)).data).bind decodeFields =
          some [(2, utf8Bytes s)]) ∧
    ((base64Decode (get_base64_protobuf (some "") none).data).bind decodeFields =
        some [(1, [])]) := by
  constructor
  · intro s
    have hdata : (get_base64_protobuf none (some s)).data =
        base64Encode (protoBuffer none (some s)) := rfl
    rw [hdata, base64Decode_encode _ (protoBuffer_byte_lt _ _)]
    have hpb : protoBuffer none (some s) = encode_string_field 2 s := by
      simp [protoBuffer]
    simp only [Option.bind_eq_bind, Option.some_bind, Option.some_bind']
    rw [hpb, decodeFields_single 2 s (by omega)]
  · decide

/-- Claim C4: the request parameter of the protocol client is
build_parameter_block of the outer record holding the video identifier and
the base64 of the inner block, whose field2 is the language and whose
field1 is asr exactly for an AUTOMATIC track; decoding the concrete outer
block for abc123 with the automatic English track recovers the identifier
and an inner block decoding to the asr marker and the language. -/
theorem c4_nested_parameter_block :
    (∀ (video_id language : String) (kind : TrackKind),
        innertube_params video_id (trackKindString kind) language =
          spec_request_parameter video_id language kind) ∧
    ((base64Decode (innertube_params "abc123" "asr" "en").data).bind decodeFields =
        some [(1, utf8Bytes "abc123"),
          (2, utf8Bytes (get_base64_protobuf (some "asr") (some "en")))]) ∧
    ((base64Decode (get_base64_protobuf (some "asr") (some "en")).data).bind decodeFields =
        some [(1, utf8Bytes "asr"), (2, utf8Bytes "en")]) := by
  refine ⟨?_, by decide, by decide⟩
  intro video_id language kind
  cases kind <;> rfl

end YtSummarizer
